import Mathlib

/-!
# Verification of the Poker-Demo table engine

Shallow embedding of the game-logic core of `backend/app.py` and
`backend/players.py`: the table state, the betting engine
(`process_player_action`, `compute_valid_actions`,
`is_betting_round_complete`), stage progression
(`progress_betting_round`, `start_game`), showdown resolution
(`resolve_showdown`), the policy-bot validation fallback
(`llm_bot_action`, `safe_default_action`) and the per-trial win/tie/loss
classification of the Monte Carlo simulators (`run_simulation`,
`estimate_equity`).

Python integers are modelled as `Int` (arbitrary precision, no overflow).
Python dicts for players and the game state are modelled as structures.
The external PokerKit `StandardHighHand` total order (the HandRanker
capability) is modelled as a parameter `rank : List Card → List Card → Nat`
mapping (hole cards, board) to an orderable strength; the random shuffles
are modelled by passing the shuffled deck as an explicit argument.
-/

/-- Card rank, 13 values (mirrors PokerKit `Rank` as used by the source). -/
inductive Rank where
  | two | three | four | five | six | seven | eight | nine
  | ten | jack | queen | king | ace
deriving DecidableEq, BEq, Repr

/-- Card suit, 4 values. -/
inductive Suit where
  | hearts | diamonds | clubs | spades
deriving DecidableEq, BEq, Repr

/-- A playing card: rank × suit, equality componentwise (PokerKit `Card`). -/
structure Card where
  rank : Rank
  suit : Suit
deriving DecidableEq, BEq, Repr

/-- `create_deck` from app.py: all 52 rank × suit combinations, ranks outer,
suits inner. -/
def create_deck : List Card :=
  ([Rank.two, Rank.three, Rank.four, Rank.five, Rank.six, Rank.seven,
    Rank.eight, Rank.nine, Rank.ten, Rank.jack, Rank.queen, Rank.king,
    Rank.ace].map fun r =>
      [Suit.hearts, Suit.diamonds, Suit.clubs, Suit.spades].map fun s =>
        Card.mk r s).flatten

/-- A seat/player dict, fields as created by `create_player` /
`create_new_game` in the source. -/
structure Player where
  id : Int
  name : String
  player_type : String
  chips : Int
  hole_cards : List Card
  is_dealer : Bool
  is_small_blind : Bool
  is_big_blind : Bool
  is_active : Bool
  pending_active : Bool
  current_bet : Int
  folded : Bool
  acted_this_round : Bool
deriving DecidableEq, Repr

/-- Default player used for out-of-range `List.getD` lookups (the source never
reads out of range on the paths we verify; see `pyIdxNat`). -/
def dfltPlayer : Player :=
  { id := 0, name := "", player_type := "human", chips := 0, hole_cards := [],
    is_dealer := false, is_small_blind := false, is_big_blind := false,
    is_active := false, pending_active := false, current_bet := 0,
    folded := false, acted_this_round := false }

/-- Default card for out-of-range deck lookups (never hit with a full deck). -/
def dfltCard : Card := Card.mk Rank.two Suit.hearts

/-- The per-table `game_state` dict of app.py (fields the game logic uses). -/
structure GameState where
  community_cards : List Card
  pot : Int
  current_bet : Int
  players : List Player
  current_player_index : Int
  game_stage : String
  small_blind : Int
  big_blind : Int
deriving DecidableEq, Repr

/-- The external HandRanker capability: (hole cards, board) ↦ orderable
hand strength (PokerKit `StandardHighHand.from_game` plus its total order). -/
def Ranker : Type := List Card → List Card → Nat

/-- Modify the `i`-th element of a list in place (Python `lst[i] = f(lst[i])`);
no-op when `i` is out of range. -/
def modAt (ps : List Player) (i : Nat) (f : Player → Player) : List Player :=
  ps.set i (f (ps.getD i dfltPlayer))

/-- Python list indexing semantics for an index already known to satisfy
`i < n` (the source checks `player_id >= len(players)` first): non-negative
indices are used directly, negative indices wrap from the end, and an index
below `-n` raises `IndexError` (modelled as `none`). -/
def pyIdxNat (n : Nat) (i : Int) : Option Nat :=
  if 0 ≤ i then some i.toNat
  else if 0 ≤ i + n then some (i + n).toNat
  else none

/-- `[p for p in players if p["is_active"] and not p["folded"]]`, length. -/
def countActiveNotFolded (ps : List Player) : Nat :=
  (ps.filter fun p => p.is_active && !p.folded).length

/-- Python `next((i for i, p in enumerate(ps) if pred p), None)`:
first index satisfying the predicate. -/
def firstIdxAux (pred : Player → Bool) : List Player → Nat → Option Nat
  | [], _ => none
  | p :: rest, i => if pred p then some i else firstIdxAux pred rest (i + 1)

/-- First index in `ps` whose element satisfies `pred`, if any. -/
def firstIdx (pred : Player → Bool) (ps : List Player) : Option Nat :=
  firstIdxAux pred ps 0

/-- Result dict of `compute_valid_actions`. -/
structure ActionInfo where
  valid_actions : List String
  min_raise : Int
  max_raise : Int
deriving DecidableEq, Repr

/-- `compute_valid_actions` (identical in app.py and players.py): fold always;
check when the seat has matched the table bet, else call; raise when the
full-stack cap reaches the minimum raise and the seat has chips. -/
def compute_valid_actions (gs : GameState) (p : Player) : ActionInfo :=
  let valid := ["fold"]
  let valid := valid ++ (if gs.current_bet = p.current_bet then ["check"] else ["call"])
  let min_raise := max (gs.current_bet + gs.big_blind) (gs.current_bet * 2)
  let max_raise := p.current_bet + p.chips
  let valid := if min_raise ≤ max_raise ∧ 0 < p.chips then valid ++ ["raise"] else valid
  { valid_actions := valid, min_raise := min_raise, max_raise := max_raise }

/-- An action request/decision payload `{"action": ..., "amount": ...}`. -/
structure BotAction where
  action : String
  amount : Int
deriving DecidableEq, Repr

/-- `safe_default_action`: check if legal, else call, else fold. -/
def safe_default_action (gs : GameState) (p : Player) : BotAction :=
  let info := compute_valid_actions gs p
  if info.valid_actions.contains "check" then { action := "check", amount := 0 }
  else if info.valid_actions.contains "call" then { action := "call", amount := 0 }
  else { action := "fold", amount := 0 }

/-- The `amount` field of a parsed advisory response, as seen by Python's
`int(amount)`: either convertible to an integer (JSON numbers, numeric
strings — with an absent field defaulting to `0`) or not convertible
(`int(...)` raises). -/
inductive LLMAmount where
  | toInt (n : Int)
  | noInt
deriving DecidableEq, Repr

/-- A parsed advisory JSON object: `action` is the `"action"` entry when it is
a string (`none` when absent), `amount` the `"amount"` entry with the
`parsed.get("amount", 0)` default applied. -/
structure LLMParsed where
  action : Option String
  amount : LLMAmount
deriving DecidableEq, Repr

/-- The validation/fallback logic of `llm_bot_action` (players.py and app.py
are identical here). The advisory call and JSON parse are external; `parsed`
is the output of `parse_llm_action` on the advisory text (`none` for a parse
failure or a falsy parse result). -/
def llm_bot_action (gs : GameState) (p : Player) (parsed : Option LLMParsed) : BotAction :=
  let info := compute_valid_actions gs p
  match parsed with
  | none => safe_default_action gs p
  | some pr =>
    match pr.action with
    | none => safe_default_action gs p
    | some act =>
      if !(info.valid_actions.contains act) then safe_default_action gs p
      else if act = "raise" then
        match pr.amount with
        | LLMAmount.noInt => safe_default_action gs p
        | LLMAmount.toInt n =>
          if n < info.min_raise ∨ info.max_raise < n then safe_default_action gs p
          else { action := "raise", amount := n }
      else { action := act, amount := 0 }

/-- `is_betting_round_complete`: true when at most one active non-folded seat
remains, or when every active non-folded seat has acted this round and has
matched the table bet. -/
def is_betting_round_complete (gs : GameState) : Bool :=
  let anf := gs.players.filter fun p => p.is_active && !p.folded
  if anf.length ≤ 1 then true
  else anf.all fun p => p.acted_this_round && (gs.current_bet ≤ p.current_bet)

/-- The cards already visible: community cards plus all dealt hole cards
(`used_card_objs` in `progress_betting_round`). -/
def usedCards (gs : GameState) : List Card :=
  gs.community_cards ++ (gs.players.map Player.hole_cards).flatten

/-- Per-seat reset applied by `progress_betting_round` to every active
non-folded seat: clear the round bet and the acted flag. -/
def resetRoundFlags (p : Player) : Player :=
  if p.is_active && !p.folded then
    { p with current_bet := 0, acted_this_round := false }
  else p

/-- First phase of `progress_betting_round` after the early-exit: reset every
active non-folded seat's round bet and acted flag, reset the table bet. -/
def progress_reset (gs : GameState) : GameState :=
  { gs with
    players := gs.players.map resetRoundFlags,
    current_bet := 0 }

/-- Stage-specific dealing in `progress_betting_round`: excluding all visible
cards from the freshly shuffled `deck`, deal 3 cards entering the flop and 1
card entering turn/river; `river → showdown` deals nothing; any other stage is
left unchanged.  (Python takes `available[0]` for turn/river, raising
`IndexError` if no card remains — unreachable with a full 52-card deck;
modelled with `take 1`.) -/
def progress_deal (deck : List Card) (gs : GameState) : GameState :=
  if gs.game_stage = "pre_flop" then
    let available := deck.filter fun c => !((usedCards gs).contains c)
    { gs with community_cards := available.take 3, game_stage := "flop" }
  else if gs.game_stage = "flop" then
    let available := deck.filter fun c => !((usedCards gs).contains c)
    { gs with community_cards := gs.community_cards ++ available.take 1, game_stage := "turn" }
  else if gs.game_stage = "turn" then
    let available := deck.filter fun c => !((usedCards gs).contains c)
    { gs with community_cards := gs.community_cards ++ available.take 1, game_stage := "river" }
  else if gs.game_stage = "river" then
    { gs with game_stage := "showdown" }
  else gs

/-- Final phase of `progress_betting_round`: with more than one active
non-folded seat, point `current_player_index` at the first seat that is active
and marked small blind (the source does not test `folded` here); failing that,
at the first active non-folded non-dealer seat; failing that, leave it. -/
def progress_set_actor (gs : GameState) : GameState :=
  if 1 < countActiveNotFolded gs.players then
    match firstIdx (fun p => p.is_active && p.is_small_blind) gs.players with
    | some i => { gs with current_player_index := (i : Int) }
    | none =>
      match firstIdx (fun p => p.is_active && !p.folded && !p.is_dealer) gs.players with
      | some i => { gs with current_player_index := (i : Int) }
      | none => gs
  else gs

/-- `progress_betting_round`: jump to showdown when at most one active
non-folded seat remains; otherwise reset the round, deal the next street from
`deck`, and pick the first actor of the new round. -/
def progress_betting_round (deck : List Card) (gs : GameState) : GameState :=
  if countActiveNotFolded gs.players ≤ 1 then { gs with game_stage := "showdown" }
  else progress_set_actor (progress_deal deck (progress_reset gs))

/-- Indices of active non-folded seats, in seat order. -/
def activeNotFoldedIdx (ps : List Player) : List Nat :=
  (List.range ps.length).filter fun i =>
    (ps.getD i dfltPlayer).is_active && !(ps.getD i dfltPlayer).folded

/-- Award the whole pot to seat `i` (`winner["chips"] += pot; pot = 0`). -/
def awardPotAt (gs : GameState) (i : Nat) : GameState :=
  { gs with
    players := modAt gs.players i fun p => { p with chips := p.chips + gs.pot },
    pot := 0 }

/-- The winner-selection loop of `resolve_showdown`: scan the active
non-folded seat indices, skip seats holding fewer than 2 hole cards, keep the
first strictly greatest hand. `acc` is the `(best_hand_value, winner)` pair. -/
def findWinnerAux (rank : Ranker) (board : List Card) (ps : List Player) :
    List Nat → Option (Nat × Nat) → Option Nat
  | [], acc => acc.map fun x => x.2
  | i :: rest, acc =>
    let p := ps.getD i dfltPlayer
    if p.hole_cards.length < 2 then findWinnerAux rank board ps rest acc
    else
      let v := rank p.hole_cards board
      match acc with
      | none => findWinnerAux rank board ps rest (some (v, i))
      | some (bv, bi) =>
        if bv < v then findWinnerAux rank board ps rest (some (v, i))
        else findWinnerAux rank board ps rest (some (bv, bi))

/-- `resolve_showdown`: with no active non-folded seat, do nothing; with one,
it takes the pot uncontested; with several but an incomplete board, the first
takes the pot (documented defensive fallback); otherwise the strictly best
hand under `rank` takes the whole pot (first maximal seat on ties). -/
def resolve_showdown (rank : Ranker) (gs : GameState) : GameState :=
  match activeNotFoldedIdx gs.players with
  | [] => gs
  | i :: rest =>
    if rest.isEmpty then awardPotAt gs i
    else if gs.community_cards.length < 5 then awardPotAt gs i
    else
      match findWinnerAux rank gs.community_cards gs.players (i :: rest) none with
      | some w => awardPotAt gs w
      | none => gs

/-- The per-action effect switch of `process_player_action` (source lines
555–587), acting on the already validated seat index `j`; rejections happen
before any state change. -/
def applyAct (gs : GameState) (j : Nat) (act : String) (amt : Int) :
    Except String GameState :=
  let cp := gs.players.getD j dfltPlayer
  if act = "fold" then
    Except.ok { gs with
      players := modAt gs.players j fun p => { p with folded := true, acted_this_round := true } }
  else if act = "check" then
    if cp.current_bet < gs.current_bet then Except.error "Cannot check, must call or fold"
    else Except.ok { gs with
      players := modAt gs.players j fun p => { p with acted_this_round := true } }
  else if act = "call" then
    let call_amount := gs.current_bet - cp.current_bet
    if cp.chips < call_amount then Except.error "Insufficient chips to call"
    else Except.ok { gs with
      players := modAt gs.players j fun p =>
        { p with chips := p.chips - call_amount, current_bet := gs.current_bet,
                 acted_this_round := true },
      pot := gs.pot + call_amount }
  else if act = "raise" then
    let min_raise := max (gs.current_bet + gs.big_blind) (gs.current_bet * 2)
    if amt < min_raise then Except.error ("Raise must be at least " ++ toString min_raise)
    else
      let bet_diff := amt - cp.current_bet
      if cp.chips < bet_diff then Except.error "Insufficient chips to raise"
      else Except.ok { gs with
        players := modAt gs.players j fun p =>
          { p with chips := p.chips - bet_diff, current_bet := amt,
                   acted_this_round := true },
        current_bet := amt,
        pot := gs.pot + bet_diff }
  else Except.ok gs

/-- The turn-advance scan of `process_player_action`: starting at `idx`, walk
clockwise for at most `fuel` steps (the source bounds attempts by the seat
count) looking for an active non-folded seat that has not yet acted. -/
def scanNextAux (ps : List Player) : Nat → Nat → Option Nat
  | 0, _ => none
  | fuel + 1, idx =>
    let p := ps.getD idx dfltPlayer
    if p.is_active && !p.folded && !p.acted_this_round then some idx
    else scanNextAux ps fuel ((idx + 1) % ps.length)

/-- Post-action turn/stage bookkeeping of `process_player_action` (lines
589–614): force showdown when at most one active non-folded seat remains; else
advance the stage when the round is complete; else pass the turn to the next
unacted seat, falling back to advancing the stage when none exists. -/
def advanceAfterAction (deck : List Card) (gs : GameState) : GameState :=
  if countActiveNotFolded gs.players ≤ 1 then { gs with game_stage := "showdown" }
  else if is_betting_round_complete gs then progress_betting_round deck gs
  else
    match scanNextAux gs.players gs.players.length
        (((gs.current_player_index + 1) % (gs.players.length : Int)).toNat) with
    | some idx => { gs with current_player_index := (idx : Int) }
    | none => progress_betting_round deck gs

/-- Lines 630–631 of the source: once the stage has reached showdown, resolve
it (award the pot). -/
def maybeResolve (rank : Ranker) (gs : GameState) : GameState :=
  if gs.game_stage = "showdown" then resolve_showdown rank gs else gs

/-- Post-action bookkeeping of `process_player_action` (lines 589–641). -/
def postProcess (rank : Ranker) (deck : List Card) (gs : GameState) : GameState :=
  maybeResolve rank (advanceAfterAction deck gs)

/-- `process_player_action`: validate the request (each failure rejects with a
message and leaves the state untouched), apply the action, then run the
post-action bookkeeping.  `pid?` is `None`/non-int (→ unassigned) or the seat
id; `deck` is the shuffled deck a stage advance would deal from. -/
def process_player_action (rank : Ranker) (deck : List Card) (gs : GameState)
    (pid? : Option Int) (act : String) (amt : Int) : GameState × Option String :=
  match pid? with
  | none => (gs, some "Player ID not assigned yet. Please wait for player_assigned event")
  | some pid =>
    if !(act = "fold" || act = "check" || act = "call" || act = "raise") then
      (gs, some "Invalid action")
    else if (gs.players.length : Int) ≤ pid then (gs, some "Invalid player ID")
    else if pid ≠ gs.current_player_index then (gs, some "Not your turn")
    else
      match pyIdxNat gs.players.length pid with
      | none => (gs, some "IndexError")
      | some j =>
        if !(gs.players.getD j dfltPlayer).is_active then (gs, some "Player not active")
        else
          match applyAct gs j act amt with
          | Except.error msg => (gs, some msg)
          | Except.ok gs1 => (postProcess rank deck gs1, none)

/-- Pending-seat promotion at the top of `start_game`. -/
def promoteSeat (p : Player) : Player :=
  if p.pending_active then { p with is_active := true, pending_active := false } else p

/-- Per-hand reset applied by `start_game` to each active seat. -/
def startReset (p : Player) : Player :=
  { p with folded := false, current_bet := 0, acted_this_round := false }

/-- `start_game`'s reset loop over the active seat indices. -/
def startResetAll (ps : List Player) (activeIdx : List Nat) : List Player :=
  activeIdx.foldl (fun acc i => modAt acc i startReset) ps

/-- Give the `k`-th active seat its two hole cards `deck[2k]`, `deck[2k+1]`. -/
def holeStep (deck : List Card) (ki : Nat × Nat) (p : Player) : Player :=
  { p with hole_cards := [deck.getD (2 * ki.1) dfltCard, deck.getD (2 * ki.1 + 1) dfltCard] }

/-- Hole-card dealing loop of `start_game`: the `k`-th active seat receives
`deck[2k]` and `deck[2k+1]`. -/
def dealHoles (deck : List Card) (ps : List Player) (activeIdx : List Nat) : List Player :=
  activeIdx.enum.foldl (fun acc ki => modAt acc ki.2 (holeStep deck ki)) ps

/-- Dealer/blind flag reset done by `start_game` for every seat. -/
def clearBlindFlags (p : Player) : Player :=
  { p with is_dealer := false, is_small_blind := false, is_big_blind := false }

/-- The per-hand preparation of `start_game` once at least 2 active seats
exist: reset the active seats' per-hand state, deal hole cards, clear all
dealer/blind flags. -/
def startPrep (deck : List Card) (ps : List Player) (activeIdx : List Nat) : List Player :=
  (dealHoles deck (startResetAll ps activeIdx) activeIdx).map clearBlindFlags

/-- `active_indices` of `start_game`: indices of seats that are active and not
pending. -/
def activeNonPendingIdx (ps : List Player) : List Nat :=
  (List.range ps.length).filter fun i =>
    (ps.getD i dfltPlayer).is_active && !(ps.getD i dfltPlayer).pending_active

/-- Blind posting on one seat: deduct the blind from the stack and set the
seat's round bet to it. -/
def postBlind (amount : Int) (p : Player) : Player :=
  { p with chips := p.chips - amount, current_bet := amount }

/-- Heads-up: the first active seat is dealer and small blind. -/
def setDealerSBFlags (p : Player) : Player :=
  { p with is_dealer := true, is_small_blind := true }

/-- Mark a seat as big blind. -/
def setBBFlag (p : Player) : Player :=
  { p with is_big_blind := true }

/-- Mark a seat as dealer (multi-player branch). -/
def setDealerFlag (p : Player) : Player :=
  { p with is_dealer := true }

/-- Mark a seat as small blind (multi-player branch). -/
def setSBFlag (p : Player) : Player :=
  { p with is_small_blind := true }

/-- `start_game`: promote pending seats; with fewer than 2 active seats stop
(keeping the promotion); otherwise reset per-hand seat state, deal 2 hole
cards per active seat from `deck`, clear blinds flags, post blinds by the
heads-up or multi-player rule, and set the table bet and first actor. -/
def start_game (deck : List Card) (gs : GameState) : GameState :=
  let ps0 := gs.players.map promoteSeat
  let activeIdx := activeNonPendingIdx ps0
  if activeIdx.length < 2 then { gs with players := ps0 }
  else
    let ps3 := startPrep deck ps0 activeIdx
    let sb := gs.small_blind
    let bb := gs.big_blind
    let a0 := activeIdx.getD 0 0
    let a1 := activeIdx.getD 1 0
    if activeIdx.length = 2 then
      let ps7 := modAt (modAt (modAt (modAt ps3 a0 setDealerSBFlags) a1 setBBFlag)
        a0 (postBlind sb)) a1 (postBlind bb)
      let cpi := if activeIdx.contains a0 then a0 else a0
      { gs with players := ps7, community_cards := [], game_stage := "pre_flop",
                pot := sb + bb, current_player_index := (cpi : Int), current_bet := bb }
    else
      let ab := if 2 < activeIdx.length then activeIdx.getD 2 0 else a0
      let ps8 := modAt (modAt (modAt (modAt (modAt ps3 a0 setDealerFlag) a1 setSBFlag)
        a1 (postBlind sb)) ab setBBFlag) ab (postBlind bb)
      let cpiRaw := if 3 < activeIdx.length then activeIdx.getD 3 0 else a0
      let cpi := if activeIdx.contains cpiRaw then cpiRaw else a0
      { gs with players := ps8, community_cards := [], game_stage := "pre_flop",
                pot := sb + bb, current_player_index := (cpi : Int), current_bet := bb }

/-- Outcome recorded for one Monte Carlo trial. -/
inductive TrialOutcome where
  | win | tie | loss
deriving DecidableEq, Repr

/-- The opponent-comparison loop of `run_simulation` (app.py), over abstract
hand strengths: on meeting a strictly better opponent hand, clear
`player_wins` and break, leaving `is_tie` as accumulated; on an equal hand,
set `is_tie`.  Returns `(player_wins, is_tie)`. -/
def simTrialApp (p : Nat) : List Nat → Bool → Bool × Bool
  | [], isTie => (true, isTie)
  | o :: rest, isTie =>
    if p < o then (false, isTie)
    else if p = o then simTrialApp p rest true
    else simTrialApp p rest isTie

/-- The opponent-comparison loop of `estimate_equity` (players.py): identical
except that meeting a strictly better opponent also resets `is_tie` to false
before breaking. -/
def simTrialPlayers (p : Nat) : List Nat → Bool → Bool × Bool
  | [], isTie => (true, isTie)
  | o :: rest, isTie =>
    if p < o then (false, false)
    else if p = o then simTrialPlayers p rest true
    else simTrialPlayers p rest isTie

/-- Trial classification of `run_simulation`:
`if player_wins and not is_tie: win; elif is_tie: tie; else: loss`. -/
def trialOutcomeApp (p : Nat) (opps : List Nat) : TrialOutcome :=
  match simTrialApp p opps false with
  | (true, false) => TrialOutcome.win
  | (_, true) => TrialOutcome.tie
  | (false, false) => TrialOutcome.loss

/-- Trial classification of `estimate_equity` (same final if/elif/else). -/
def trialOutcomePlayers (p : Nat) (opps : List Nat) : TrialOutcome :=
  match simTrialPlayers p opps false with
  | (true, false) => TrialOutcome.win
  | (_, true) => TrialOutcome.tie
  | (false, false) => TrialOutcome.loss

/-- Modelled from the spec (for the C4 refinement): the seat the amended claim
says `progress_betting_round` hands the turn to — the first active
small-blind seat regardless of folding, else the first active non-folded
non-dealer seat, else the previous index. -/
def newActorIndex (ps : List Player) (old : Int) : Int :=
  match firstIdx (fun p => p.is_active && p.is_small_blind) ps with
  | some i => (i : Int)
  | none =>
    match firstIdx (fun p => p.is_active && !p.folded && !p.is_dealer) ps with
    | some i => (i : Int)
    | none => old

/-- Stand-in for the external HandRanker in closed evaluations that never
reach a hand comparison. -/
def constRanker : Ranker := fun _ _ => 0

/-- Total chips held by the seats. -/
def chipsOf (ps : List Player) : Int :=
  (ps.map Player.chips).sum

/-- The conserved quantity of claim C2: pot plus all chip stacks. -/
def chipSum (gs : GameState) : Int :=
  gs.pot + chipsOf gs.players

/-- Concrete active seat used by the example tables below. -/
def mkSeat (i : Int) (chips bet : Int) (acted folded : Bool) : Player :=
  { dfltPlayer with
    id := i, is_active := true, chips := chips, current_bet := bet,
    acted_this_round := acted, folded := folded }

/-- Heads-up table, pre-flop: seat 0 (dealer/small blind) has called to 10 and
acted; seat 1 (big blind) is to act at table bet 10. -/
def gsHU : GameState :=
  { community_cards := [], pot := 20, current_bet := 10,
    players := [ { (mkSeat 0 90 10 true false) with
                   is_dealer := true, is_small_blind := true,
                   hole_cards := [Card.mk Rank.ace Suit.hearts, Card.mk Rank.king Suit.hearts] },
                 { (mkSeat 1 90 10 false false) with
                   is_big_blind := true,
                   hole_cards := [Card.mk Rank.two Suit.clubs, Card.mk Rank.three Suit.clubs] } ],
    current_player_index := 1, game_stage := "pre_flop", small_blind := 5, big_blind := 10 }

/-- The state reached from `gsHU` once seat 1's raise to 20 has been applied
(before turn advancement). -/
def gsHUraised : GameState :=
  { gsHU with
    current_bet := 20, pot := 30,
    players := [ gsHU.players.getD 0 dfltPlayer,
                 { (gsHU.players.getD 1 dfltPlayer) with
                   chips := 80, current_bet := 20, acted_this_round := true } ] }

/-- Three-seat table whose small blind (seat 1) has folded; seats 0 and 2 are
still live. -/
def gsSBfolded : GameState :=
  { community_cards := [], pot := 30, current_bet := 0,
    players := [ { (mkSeat 0 100 0 false false) with is_dealer := true },
                 { (mkSeat 1 100 0 true true) with is_small_blind := true },
                 { (mkSeat 2 100 0 false false) with is_big_blind := true } ],
    current_player_index := 2, game_stage := "pre_flop", small_blind := 5, big_blind := 10 }

/-- Heads-up table at the start of a betting round, both seats unacted with
matching bets; seat 0 to act. -/
def gsEven : GameState :=
  { community_cards := [], pot := 0, current_bet := 0,
    players := [ mkSeat 0 100 0 false false, mkSeat 1 100 0 false false ],
    current_player_index := 0, game_stage := "pre_flop", small_blind := 5, big_blind := 10 }

/-- Waiting table of two seats holding 3 chips each — fewer than the blinds. -/
def gsPoor : GameState :=
  { community_cards := [], pot := 0, current_bet := 0,
    players := [ mkSeat 0 3 0 false false, mkSeat 1 3 0 false false ],
    current_player_index := -1, game_stage := "waiting", small_blind := 5, big_blind := 10 }

/-- Waiting table of two seats holding 100 chips each. -/
def gsRich : GameState :=
  { community_cards := [], pot := 0, current_bet := 0,
    players := [ mkSeat 0 100 0 false false, mkSeat 1 100 0 false false ],
    current_player_index := -1, game_stage := "waiting", small_blind := 5, big_blind := 10 }

/-- A seat facing no outstanding bet, with a 50-chip stack (so the raise range
is [10, 50] on `gsEven`). -/
def seatC8 : Player := mkSeat 0 50 0 false false

/-- A parsed advisory reply suggesting an out-of-range raise to 999. -/
def prC8 : LLMParsed := { action := some "raise", amount := LLMAmount.toInt 999 }

/-- Heads-up table whose current player (seat 0) is active but folded. -/
def gsFoldedTurn : GameState :=
  { community_cards := [], pot := 15, current_bet := 0,
    players := [ mkSeat 0 95 0 false true, mkSeat 1 90 0 false false ],
    current_player_index := 0, game_stage := "flop", small_blind := 5, big_blind := 10 }

/-! ## Helper lemmas on list updates -/

theorem modAt_length (ps : List Player) (i : Nat) (f : Player → Player) :
    (modAt ps i f).length = ps.length := by
  simp [modAt]

theorem getD_modAt (ps : List Player) (i j : Nat) (f : Player → Player) :
    (modAt ps i f).getD j dfltPlayer =
      if j = i ∧ i < ps.length then f (ps.getD i dfltPlayer)
      else ps.getD j dfltPlayer := by
  induction ps generalizing i j with
  | nil => simp [modAt]
  | cons p t ih =>
    cases i with
    | zero =>
      cases j with
      | zero => simp [modAt]
      | succ j' => simp [modAt]
    | succ i' =>
      cases j with
      | zero => simp [modAt, List.set_cons_succ]
      | succ j' =>
        have : modAt (p :: t) (i' + 1) f = p :: modAt t i' f := by
          simp [modAt, List.set_cons_succ]
        rw [this, List.getD_cons_succ, ih]
        simp only [List.length_cons]
        by_cases h1 : j' = i' <;> by_cases h2 : i' < t.length <;>
          simp [h1, h2, Nat.succ_lt_succ_iff]

theorem getD_modAt_ne (ps : List Player) (i j : Nat) (f : Player → Player)
    (h : j ≠ i) :
    (modAt ps i f).getD j dfltPlayer = ps.getD j dfltPlayer := by
  rw [getD_modAt]
  simp [h]

theorem chipsOf_cons (p : Player) (t : List Player) :
    chipsOf (p :: t) = p.chips + chipsOf t := by
  simp [chipsOf]

theorem chipsOf_modAt_of_lt (ps : List Player) (i : Nat) (f : Player → Player)
    (h : i < ps.length) :
    chipsOf (modAt ps i f) =
      chipsOf ps + (f (ps.getD i dfltPlayer)).chips - (ps.getD i dfltPlayer).chips := by
  induction ps generalizing i with
  | nil => simp at h
  | cons p t ih =>
    cases i with
    | zero =>
      simp only [modAt, List.getD_cons_zero, List.set_cons_zero]
      rw [chipsOf_cons, chipsOf_cons]
      ring
    | succ i' =>
      have hstep : modAt (p :: t) (i' + 1) f = p :: modAt t i' f := by
        simp [modAt, List.set_cons_succ]
      rw [hstep, chipsOf_cons, List.getD_cons_succ,
        ih i' (Nat.lt_of_succ_lt_succ h), chipsOf_cons]
      ring

theorem chipsOf_modAt_pres (ps : List Player) (i : Nat) (f : Player → Player)
    (h : ∀ p, (f p).chips = p.chips) :
    chipsOf (modAt ps i f) = chipsOf ps := by
  by_cases hi : i < ps.length
  · rw [chipsOf_modAt_of_lt ps i f hi, h]
    ring
  · have : modAt ps i f = ps := by
      apply List.ext_getElem
      · simp [modAt]
      · intro n h1 h2
        simp only [modAt]
        rw [List.getElem_set]
        split
        · omega
        · rfl
    rw [this]

theorem chipsOf_map_pres (g : Player → Player) (h : ∀ p, (g p).chips = p.chips) :
    ∀ ps : List Player, chipsOf (ps.map g) = chipsOf ps := by
  intro ps
  induction ps with
  | nil => rfl
  | cons p t ih => simp [List.map_cons, chipsOf_cons, ih, h]

theorem chipsOf_foldl_modAt {β : Type} (ix : β → Nat) (st : β → Player → Player)
    (h : ∀ b p, (st b p).chips = p.chips) :
    ∀ (l : List β) (ps : List Player),
      chipsOf (l.foldl (fun acc b => modAt acc (ix b) (st b)) ps) = chipsOf ps := by
  intro l
  induction l with
  | nil => intro ps; rfl
  | cons b t ih =>
    intro ps
    rw [List.foldl_cons, ih, chipsOf_modAt_pres _ _ _ (h b)]

theorem getD_chips_modAt_pres (ps : List Player) (i j : Nat) (f : Player → Player)
    (h : ∀ p, (f p).chips = p.chips) :
    ((modAt ps i f).getD j dfltPlayer).chips = (ps.getD j dfltPlayer).chips := by
  rw [getD_modAt]
  split
  · next hc => rw [h, hc.1]
  · rfl

theorem getD_chips_map_pres (g : Player → Player) (h : ∀ p, (g p).chips = p.chips) :
    ∀ (ps : List Player) (j : Nat),
      ((ps.map g).getD j dfltPlayer).chips = (ps.getD j dfltPlayer).chips := by
  intro ps
  induction ps with
  | nil => intro j; rfl
  | cons p t ih =>
    intro j
    cases j with
    | zero => simp [h]
    | succ j' => simpa using ih j'

theorem getD_chips_foldl_modAt {β : Type} (ix : β → Nat) (st : β → Player → Player)
    (h : ∀ b p, (st b p).chips = p.chips) :
    ∀ (l : List β) (ps : List Player) (j : Nat),
      ((l.foldl (fun acc b => modAt acc (ix b) (st b)) ps).getD j dfltPlayer).chips =
        ((ps.getD j dfltPlayer)).chips := by
  intro l
  induction l with
  | nil => intro ps j; rfl
  | cons b t ih =>
    intro ps j
    rw [List.foldl_cons, ih, getD_chips_modAt_pres _ _ _ _ (h b)]

theorem foldl_modAt_length {β : Type} (ix : β → Nat) (st : β → Player → Player) :
    ∀ (l : List β) (ps : List Player),
      (l.foldl (fun acc b => modAt acc (ix b) (st b)) ps).length = ps.length := by
  intro l
  induction l with
  | nil => intro ps; rfl
  | cons b t ih =>
    intro ps
    rw [List.foldl_cons, ih, modAt_length]

theorem firstIdxAux_map_pres (pred : Player → Bool) (g : Player → Player)
    (h : ∀ p, pred (g p) = pred p) :
    ∀ (ps : List Player) (i : Nat),
      firstIdxAux pred (ps.map g) i = firstIdxAux pred ps i := by
  intro ps
  induction ps with
  | nil => intro i; rfl
  | cons p t ih =>
    intro i
    simp only [List.map_cons, firstIdxAux, h]
    split
    · rfl
    · exact ih (i + 1)

theorem firstIdx_map_pres (pred : Player → Bool) (g : Player → Player)
    (h : ∀ p, pred (g p) = pred p) (ps : List Player) :
    firstIdx pred (ps.map g) = firstIdx pred ps :=
  firstIdxAux_map_pres pred g h ps 0

theorem filter_length_map_pres (pred : Player → Bool) (g : Player → Player)
    (h : ∀ p, pred (g p) = pred p) :
    ∀ ps : List Player, ((ps.map g).filter pred).length = (ps.filter pred).length := by
  intro ps
  induction ps with
  | nil => rfl
  | cons p t ih =>
    simp only [List.map_cons, List.filter_cons, h]
    split
    · simpa using ih
    · exact ih

theorem getD_mem_of_lt (ps : List Player) (j : Nat) (h : j < ps.length) :
    ps.getD j dfltPlayer ∈ ps := by
  rw [List.getD_eq_getElem ps dfltPlayer h]
  exact List.getElem_mem h

theorem filter_length_pos_of_getD (pred : Player → Bool) (ps : List Player) (j : Nat)
    (hj : j < ps.length) (hp : pred (ps.getD j dfltPlayer) = true) :
    1 ≤ (ps.filter pred).length := by
  have hmem : ps.getD j dfltPlayer ∈ ps.filter pred :=
    List.mem_filter.mpr ⟨getD_mem_of_lt ps j hj, hp⟩
  have := List.length_pos.mpr (List.ne_nil_of_mem hmem)
  omega

theorem two_le_filter_length_aux (pred : Player → Bool) :
    ∀ (ps : List Player) (x j : Nat), x < j → j < ps.length →
      pred (ps.getD x dfltPlayer) = true → pred (ps.getD j dfltPlayer) = true →
      2 ≤ (ps.filter pred).length := by
  intro ps
  induction ps with
  | nil => intro x j _ hj _ _; simp at hj
  | cons p t ih =>
    intro x j hxj hj hx hjp
    cases j with
    | zero => omega
    | succ j' =>
      cases x with
      | zero =>
        rw [List.getD_cons_zero] at hx
        rw [List.getD_cons_succ] at hjp
        have h1 : 1 ≤ (t.filter pred).length :=
          filter_length_pos_of_getD pred t j' (by simpa using hj) hjp
        simp only [List.filter_cons, hx, if_pos]
        simp only [List.length_cons]
        omega
      | succ x' =>
        rw [List.getD_cons_succ] at hx hjp
        have h2 : 2 ≤ (t.filter pred).length :=
          ih x' j' (by omega) (by simpa using hj) hx hjp
        simp only [List.filter_cons]
        split
        · simp only [List.length_cons]; omega
        · exact h2

theorem two_le_filter_length (pred : Player → Bool) (ps : List Player) (x j : Nat)
    (hne : x ≠ j) (hx : x < ps.length) (hj : j < ps.length)
    (hpx : pred (ps.getD x dfltPlayer) = true) (hpj : pred (ps.getD j dfltPlayer) = true) :
    2 ≤ (ps.filter pred).length := by
  rcases Nat.lt_or_ge x j with h | h
  · exact two_le_filter_length_aux pred ps x j h hj hpx hpj
  · have : j < x := by omega
    exact two_le_filter_length_aux pred ps j x this hx hpj hpx

theorem pyIdxNat_lt (n : Nat) (i : Int) (j : Nat) (h : pyIdxNat n i = some j)
    (hi : i < n) : j < n := by
  unfold pyIdxNat at h
  split_ifs at h with h1 h2
  · injection h with h; omega
  · injection h with h; omega

/-! ## Claim theorems -/

/-- Claim C9: `compute_valid_actions` always offers fold; offers check iff the
seat's bet matches the table bet and otherwise offers call; returns
`min_raise = max(current_bet + big_blind, current_bet * 2)` and
`max_raise = seat.current_bet + seat.chips`; and offers raise iff
`min_raise ≤ max_raise` and the seat's chips are strictly positive (so never
with an empty stack). -/
theorem compute_valid_actions_spec (gs : GameState) (p : Player) :
    "fold" ∈ (compute_valid_actions gs p).valid_actions ∧
    ("check" ∈ (compute_valid_actions gs p).valid_actions ↔ gs.current_bet = p.current_bet) ∧
    ("call" ∈ (compute_valid_actions gs p).valid_actions ↔ gs.current_bet ≠ p.current_bet) ∧
    (compute_valid_actions gs p).min_raise =
      max (gs.current_bet + gs.big_blind) (gs.current_bet * 2) ∧
    (compute_valid_actions gs p).max_raise = p.current_bet + p.chips ∧
    ("raise" ∈ (compute_valid_actions gs p).valid_actions ↔
      ((compute_valid_actions gs p).min_raise ≤ (compute_valid_actions gs p).max_raise ∧
        0 < p.chips)) := by
  unfold compute_valid_actions
  dsimp only
  split_ifs with h1 h2 h2 <;> simp_all

/-- Claim C5 (failing input): in a trial where the player ties the first
opponent (strength 1 vs 1) and strictly loses to the second (1 vs 2),
`run_simulation`'s classifier records a tie, while `estimate_equity`'s
classifier records the loss the claim demands. -/
theorem run_simulation_tie_loss_divergence :
    trialOutcomeApp 1 [1, 2] = TrialOutcome.tie ∧
    trialOutcomePlayers 1 [1, 2] = TrialOutcome.loss := by
  decide

/-- Claim C8: whenever the advisory response fails to parse, or omits/names an
action outside the currently valid set, or asks for a raise whose amount is
not convertible to an integer or lies outside `[min_raise, max_raise]`, the
policy bot returns exactly `safe_default_action`'s output for the same state —
which is never a raise. -/
theorem llm_bot_action_fallback (gs : GameState) (p : Player) :
    (llm_bot_action gs p none = safe_default_action gs p) ∧
    (∀ pr : LLMParsed, pr.action = none →
      llm_bot_action gs p (some pr) = safe_default_action gs p) ∧
    (∀ (pr : LLMParsed) (a : String), pr.action = some a →
      (compute_valid_actions gs p).valid_actions.contains a = false →
      llm_bot_action gs p (some pr) = safe_default_action gs p) ∧
    (∀ pr : LLMParsed, pr.action = some "raise" → pr.amount = LLMAmount.noInt →
      llm_bot_action gs p (some pr) = safe_default_action gs p) ∧
    (∀ (pr : LLMParsed) (n : Int), pr.action = some "raise" →
      pr.amount = LLMAmount.toInt n →
      (n < (compute_valid_actions gs p).min_raise ∨
        (compute_valid_actions gs p).max_raise < n) →
      llm_bot_action gs p (some pr) = safe_default_action gs p) ∧
    (safe_default_action gs p).action ≠ "raise" := by
  refine ⟨rfl, ?_, ?_, ?_, ?_, ?_⟩
  · rintro ⟨pra, pramt⟩ h
    cases h
    rfl
  · rintro ⟨pra, pramt⟩ a ha hc
    cases ha
    have hb : (!(compute_valid_actions gs p).valid_actions.contains a) = true := by
      rw [hc]; rfl
    dsimp only [llm_bot_action]
    rw [if_pos hb]
  · rintro ⟨pra, pramt⟩ ha hn
    cases ha
    cases hn
    dsimp only [llm_bot_action]
    by_cases hb : (!(compute_valid_actions gs p).valid_actions.contains "raise") = true
    · rw [if_pos hb]
    · rw [if_neg hb, if_pos rfl]
  · rintro ⟨pra, pramt⟩ n ha hn hrange
    cases ha
    cases hn
    dsimp only [llm_bot_action]
    by_cases hb : (!(compute_valid_actions gs p).valid_actions.contains "raise") = true
    · rw [if_pos hb]
    · rw [if_neg hb, if_pos rfl, if_pos hrange]
  · dsimp only [safe_default_action]
    split_ifs <;> decide

/-- Witness for C8: on the concrete table `gsEven` with seat `seatC8`, an
advisory raise to 999 (outside `[10, 50]`) falls back to the safe default. -/
theorem llm_bot_action_fallback_witness :
    llm_bot_action gsEven seatC8 (some prC8) = safe_default_action gsEven seatC8 :=
  (llm_bot_action_fallback gsEven seatC8).2.2.2.2.1 prC8 999 rfl rfl (by decide)

/-- Claim C3: whenever `process_player_action` rejects a request — in
particular with any of the named rejections Unassigned, InvalidAction,
InvalidSeat, NotYourTurn, SeatInactive, MustCallOrFold, InsufficientChips or
RaiseTooSmall — the returned table state is exactly the input state: every
seat's chips, bets and flags, the pot, the table bet, the stage and
`current_player_index` are unchanged (all rejections happen before any
mutation). -/
theorem process_rejection_no_change (rank : Ranker) (deck : List Card)
    (gs : GameState) (pid? : Option Int) (act : String) (amt : Int) (e : String)
    (h : (process_player_action rank deck gs pid? act amt).2 = some e) :
    (process_player_action rank deck gs pid? act amt).1 = gs := by
  have hcases : (process_player_action rank deck gs pid? act amt).2 = none ∨
      (process_player_action rank deck gs pid? act amt).1 = gs := by
    unfold process_player_action
    cases pid? with
    | none => right; rfl
    | some pid =>
      dsimp only
      split_ifs
      any_goals right; rfl
      cases pyIdxNat gs.players.length pid with
      | none => right; rfl
      | some j =>
        dsimp only
        split_ifs
        any_goals right; rfl
        cases applyAct gs j act amt with
        | error msg => right; rfl
        | ok gs1 => left; rfl
  rcases hcases with hn | he
  · rw [h] at hn
    exact absurd hn (by simp)
  · exact he

/-- Witness for C3: on `gsEven` (2 seats) a fold request for the out-of-range
seat id 5 is rejected and leaves the state unchanged. -/
theorem process_rejection_no_change_witness :
    (process_player_action constRanker [] gsEven (some 5) "fold" 0).1 = gsEven :=
  process_rejection_no_change constRanker [] gsEven (some 5) "fold" 0
    "Invalid player ID" rfl

/-- Claim C6 (amended): for any of the four action names, a seat id at or
above the seat count is rejected with InvalidSeat ("Invalid player ID") and no
state change; a negative seat id is NOT range-checked — when it differs from
`current_player_index` it is rejected with NotYourTurn ("Not your turn"),
state unchanged. -/
theorem invalid_seat_rejections (rank : Ranker) (deck : List Card) (gs : GameState)
    (pid : Int) (act : String) (amt : Int)
    (ha : act = "fold" ∨ act = "check" ∨ act = "call" ∨ act = "raise") :
    ((gs.players.length : Int) ≤ pid →
      process_player_action rank deck gs (some pid) act amt =
        (gs, some "Invalid player ID")) ∧
    (pid < 0 → pid ≠ gs.current_player_index →
      process_player_action rank deck gs (some pid) act amt =
        (gs, some "Not your turn")) := by
  have hb : (!(act = "fold" || act = "check" || act = "call" || act = "raise")) = false := by
    rcases ha with h | h | h | h <;> subst h <;> rfl
  have hb' : ¬((!(act = "fold" || act = "check" || act = "call" || act = "raise")) = true) := by
    rw [hb]
    simp
  constructor
  · intro hlen
    unfold process_player_action
    dsimp only
    rw [if_neg hb', if_pos hlen]
  · intro hneg hturn
    have hlen : ¬((gs.players.length : Int) ≤ pid) := by omega
    unfold process_player_action
    dsimp only
    rw [if_neg hb', if_neg hlen, if_pos hturn]

/-- Witness for C6 (amended): on the 2-seat table `gsEven`, seat id 7 is
rejected with "Invalid player ID" and the state is returned unchanged. -/
theorem invalid_seat_rejections_witness :
    process_player_action constRanker [] gsEven (some 7) "check" 0 =
      (gsEven, some "Invalid player ID") :=
  (invalid_seat_rejections constRanker [] gsEven 7 "check" 0
    (Or.inr (Or.inl rfl))).1 (by decide)

/-- Claim C6 (counterexample): on `gsHU` (current player 1) a fold request
with the negative seat id −1 is rejected with "Not your turn" — not with the
InvalidSeat rejection "Invalid player ID" that the claim requires for every
out-of-range id. -/
theorem negative_seat_not_invalid_seat :
    (process_player_action constRanker [] gsHU (some (-1)) "fold" 0).2 =
        some "Not your turn" ∧
      (process_player_action constRanker [] gsHU (some (-1)) "fold" 0).2 ≠
        some "Invalid player ID" := by
  refine ⟨rfl, ?_⟩
  decide

/-- Claim C10: no rejection of `process_player_action` tests the acting seat's
`folded` flag: when the seat at `current_player_index` is active and has
folded, a fold is accepted, a check is accepted whenever the seat's bet
matches the table bet, a call is accepted whenever the seat can cover it, and
a raise is accepted whenever the amount is at least the minimum raise and
covered — exactly as for a non-folded seat. -/
theorem folded_current_player_accepted (rank : Ranker) (deck : List Card)
    (gs : GameState) (j : Nat) (amt : Int)
    (hj : j < gs.players.length)
    (hcur : (j : Int) = gs.current_player_index)
    (hact : (gs.players.getD j dfltPlayer).is_active = true)
    (hfold : (gs.players.getD j dfltPlayer).folded = true) :
    ((process_player_action rank deck gs (some (j : Int)) "fold" amt).2 = none) ∧
    (gs.current_bet ≤ (gs.players.getD j dfltPlayer).current_bet →
      (process_player_action rank deck gs (some (j : Int)) "check" amt).2 = none) ∧
    (gs.current_bet - (gs.players.getD j dfltPlayer).current_bet ≤
        (gs.players.getD j dfltPlayer).chips →
      (process_player_action rank deck gs (some (j : Int)) "call" amt).2 = none) ∧
    (max (gs.current_bet + gs.big_blind) (gs.current_bet * 2) ≤ amt →
      amt - (gs.players.getD j dfltPlayer).current_bet ≤
        (gs.players.getD j dfltPlayer).chips →
      (process_player_action rank deck gs (some (j : Int)) "raise" amt).2 = none) := by
  have hlen : ¬((gs.players.length : Int) ≤ (j : Int)) := by
    omega
  have hturn : ¬((j : Int) ≠ gs.current_player_index) := by
    simpa using hcur
  have hpy : pyIdxNat gs.players.length (j : Int) = some j := by
    unfold pyIdxNat
    rw [if_pos (by omega : (0 : Int) ≤ (j : Int))]
    simp
  have hactb : ¬((!(gs.players.getD j dfltPlayer).is_active) = true) := by
    rw [hact]
    simp
  refine ⟨?_, ?_, ?_, ?_⟩
  · unfold process_player_action
    dsimp only
    rw [if_neg (by decide), if_neg hlen, if_neg hturn, hpy]
    dsimp only
    rw [if_neg hactb]
    rfl
  · intro hchk
    unfold process_player_action
    dsimp only
    rw [if_neg (by decide), if_neg hlen, if_neg hturn, hpy]
    dsimp only
    rw [if_neg hactb]
    unfold applyAct
    rw [if_neg (by decide : ¬(("check" : String) = "fold")), if_pos rfl,
      if_neg (by omega : ¬((gs.players.getD j dfltPlayer).current_bet < gs.current_bet))]
  · intro hcall
    unfold process_player_action
    dsimp only
    rw [if_neg (by decide), if_neg hlen, if_neg hturn, hpy]
    dsimp only
    rw [if_neg hactb]
    unfold applyAct
    rw [if_neg (by decide : ¬(("call" : String) = "fold")),
      if_neg (by decide : ¬(("call" : String) = "check")), if_pos rfl]
    rw [if_neg (by omega : ¬((gs.players.getD j dfltPlayer).chips <
      gs.current_bet - (gs.players.getD j dfltPlayer).current_bet))]
  · intro hmin hcov
    unfold process_player_action
    dsimp only
    rw [if_neg (by decide), if_neg hlen, if_neg hturn, hpy]
    dsimp only
    rw [if_neg hactb]
    unfold applyAct
    rw [if_neg (by decide : ¬(("raise" : String) = "fold")),
      if_neg (by decide : ¬(("raise" : String) = "check")),
      if_neg (by decide : ¬(("raise" : String) = "call")), if_pos rfl]
    rw [if_neg (by omega :
      ¬(amt < max (gs.current_bet + gs.big_blind) (gs.current_bet * 2)))]
    rw [if_neg (by omega : ¬((gs.players.getD j dfltPlayer).chips <
      amt - (gs.players.getD j dfltPlayer).current_bet))]

/-- Witness for C10: on `gsFoldedTurn`, whose current seat 0 is active and
folded, a fold request is accepted (no rejection). -/
theorem folded_current_player_accepted_witness :
    (process_player_action constRanker [] gsFoldedTurn (some ((0 : Nat) : Int)) "fold" 0).2 =
      none :=
  (folded_current_player_accepted constRanker [] gsFoldedTurn 0 0
    (by decide) (by decide) (by decide) (by decide)).1

/-- Claim C1 (amended): if seat X is active, non-folded and has bet no more
than the table bet, and another seat Y's raise is accepted (with a positive
big blind), then immediately after the raise `is_betting_round_complete` is
false — X's matched-bet condition fails at the new level even though X's
`acted_this_round` flag is still true.  (The original claim's "the stage does
not advance until X has acted again" fails: the turn-advance fallback calls
`progress_betting_round` whenever no active non-folded seat has
`acted_this_round = false`; see the counterexample.) -/
theorem raise_reopens_round (gs gs1 : GameState) (x j : Nat) (amt : Int)
    (hx : x < gs.players.length) (hj : j < gs.players.length) (hxj : x ≠ j)
    (hxa : (gs.players.getD x dfltPlayer).is_active = true)
    (hxf : (gs.players.getD x dfltPlayer).folded = false)
    (hxacted : (gs.players.getD x dfltPlayer).acted_this_round = true)
    (hxbet : (gs.players.getD x dfltPlayer).current_bet ≤ gs.current_bet)
    (hja : (gs.players.getD j dfltPlayer).is_active = true)
    (hjf : (gs.players.getD j dfltPlayer).folded = false)
    (hbb : 0 < gs.big_blind)
    (hok : applyAct gs j "raise" amt = Except.ok gs1) :
    is_betting_round_complete gs1 = false := by
  unfold applyAct at hok
  rw [if_neg (by decide : ¬(("raise" : String) = "fold")),
    if_neg (by decide : ¬(("raise" : String) = "check")),
    if_neg (by decide : ¬(("raise" : String) = "call")), if_pos rfl] at hok
  by_cases hmin : amt < max (gs.current_bet + gs.big_blind) (gs.current_bet * 2)
  · rw [if_pos hmin] at hok
    exact absurd hok (by simp)
  · rw [if_neg hmin] at hok
    by_cases hcov : (gs.players.getD j dfltPlayer).chips <
        amt - (gs.players.getD j dfltPlayer).current_bet
    · rw [if_pos hcov] at hok
      exact absurd hok (by simp)
    · rw [if_neg hcov] at hok
      injection hok with hgs1
      subst hgs1
      have hamt : (gs.players.getD x dfltPlayer).current_bet < amt := by
        have h1 : gs.current_bet + gs.big_blind ≤ amt :=
          le_trans (le_max_left _ _) (not_lt.mp hmin)
        omega
      unfold is_betting_round_complete
      dsimp only
      set fr : Player → Player := fun p =>
        { p with
          chips := p.chips - (amt - (gs.players.getD j dfltPlayer).current_bet),
          current_bet := amt, acted_this_round := true } with hfr
      have hxeq : (modAt gs.players j fr).getD x dfltPlayer =
          gs.players.getD x dfltPlayer := getD_modAt_ne gs.players j x fr hxj
      have hjeq : (modAt gs.players j fr).getD j dfltPlayer =
          fr (gs.players.getD j dfltPlayer) := by
        rw [getD_modAt]
        rw [if_pos ⟨rfl, hj⟩]
      have hpredx : (((modAt gs.players j fr).getD x dfltPlayer).is_active &&
          !((modAt gs.players j fr).getD x dfltPlayer).folded) = true := by
        rw [hxeq, hxa, hxf]
        rfl
      have hpredj : (((modAt gs.players j fr).getD j dfltPlayer).is_active &&
          !((modAt gs.players j fr).getD j dfltPlayer).folded) = true := by
        rw [hjeq, hfr]
        dsimp only
        rw [hja, hjf]
        rfl
      have h2 : 2 ≤ ((modAt gs.players j fr).filter fun p =>
          p.is_active && !p.folded).length := by
        apply two_le_filter_length _ _ x j hxj
        · rw [modAt_length]; exact hx
        · rw [modAt_length]; exact hj
        · exact hpredx
        · exact hpredj
      rw [if_neg (by omega)]
      rw [Bool.eq_false_iff]
      intro hall
      rw [List.all_eq_true] at hall
      have hmemx : (modAt gs.players j fr).getD x dfltPlayer ∈
          (modAt gs.players j fr).filter fun p => p.is_active && !p.folded := by
        apply List.mem_filter.mpr
        constructor
        · apply getD_mem_of_lt
          rw [modAt_length]
          exact hx
        · exact hpredx
      have hbody := hall _ hmemx
      rw [hxeq] at hbody
      rw [hxacted] at hbody
      simp only [Bool.true_and, decide_eq_true_eq] at hbody
      omega

/-- Claim C1 (counterexample): on `gsHU` seat 0 has already acted at bet level
10; seat 1's raise to 20 is accepted, yet the very same call advances the
stage to the flop — the stage advances although seat 0 never acted at the new
bet level, because every active seat still has `acted_this_round = true`. -/
theorem raise_stage_advances_counterexample :
    (gsHU.players.getD 0 dfltPlayer).acted_this_round = true ∧
    (gsHU.players.getD 0 dfltPlayer).current_bet < 20 ∧
    (process_player_action constRanker create_deck gsHU (some 1) "raise" 20).2 = none ∧
    (process_player_action constRanker create_deck gsHU
      (some 1) "raise" 20).1.game_stage = "flop" := by
  refine ⟨rfl, by decide, rfl, rfl⟩

/-- Witness for C1 (amended): on `gsHU` the accepted raise to 20 by seat 1
leads to `gsHUraised`, where the betting round is not complete. -/
theorem raise_reopens_round_witness :
    is_betting_round_complete gsHUraised = false :=
  raise_reopens_round gsHU gsHUraised 0 1 20 (by decide) (by decide) (by decide)
    (by decide) (by decide) (by decide) (by decide) (by decide) (by decide)
    (by decide) (by rfl)

theorem progress_deal_players (deck : List Card) (gs : GameState) :
    (progress_deal deck gs).players = gs.players := by
  unfold progress_deal
  split_ifs <;> rfl

theorem progress_deal_pot (deck : List Card) (gs : GameState) :
    (progress_deal deck gs).pot = gs.pot := by
  unfold progress_deal
  split_ifs <;> rfl

theorem progress_deal_cpi (deck : List Card) (gs : GameState) :
    (progress_deal deck gs).current_player_index = gs.current_player_index := by
  unfold progress_deal
  split_ifs <;> rfl

theorem progress_set_actor_players (gs : GameState) :
    (progress_set_actor gs).players = gs.players := by
  unfold progress_set_actor
  split_ifs
  · cases firstIdx (fun p => p.is_active && p.is_small_blind) gs.players with
    | some i => rfl
    | none =>
      cases firstIdx (fun p => p.is_active && !p.folded && !p.is_dealer) gs.players with
      | some i => rfl
      | none => rfl
  · rfl

theorem progress_set_actor_pot (gs : GameState) :
    (progress_set_actor gs).pot = gs.pot := by
  unfold progress_set_actor
  split_ifs
  · cases firstIdx (fun p => p.is_active && p.is_small_blind) gs.players with
    | some i => rfl
    | none =>
      cases firstIdx (fun p => p.is_active && !p.folded && !p.is_dealer) gs.players with
      | some i => rfl
      | none => rfl
  · rfl

theorem resetRoundFlags_chips (p : Player) : (resetRoundFlags p).chips = p.chips := by
  unfold resetRoundFlags
  split <;> rfl

theorem chipSum_progress (deck : List Card) (gs : GameState) :
    chipSum (progress_betting_round deck gs) = chipSum gs := by
  unfold progress_betting_round
  split_ifs
  · rfl
  · unfold chipSum
    rw [progress_set_actor_players, progress_set_actor_pot,
      progress_deal_players, progress_deal_pot]
    unfold progress_reset
    dsimp only
    rw [chipsOf_map_pres resetRoundFlags resetRoundFlags_chips]

theorem mem_activeNotFoldedIdx_lt (ps : List Player) (i : Nat)
    (h : i ∈ activeNotFoldedIdx ps) : i < ps.length := by
  unfold activeNotFoldedIdx at h
  have := (List.mem_filter.mp h).1
  exact List.mem_range.mp this

theorem findWinnerAux_lt (rank : Ranker) (board : List Card) (ps : List Player)
    (n : Nat) :
    ∀ (l : List Nat) (acc : Option (Nat × Nat)) (w : Nat),
      (∀ v b, acc = some (v, b) → b < n) → (∀ i ∈ l, i < n) →
      findWinnerAux rank board ps l acc = some w → w < n := by
  intro l
  induction l with
  | nil =>
    intro acc w hacc _ hw
    unfold findWinnerAux at hw
    cases acc with
    | none => simp at hw
    | some vb =>
      simp at hw
      exact hw ▸ hacc vb.1 vb.2 rfl
  | cons i rest ih =>
    intro acc w hacc hl hw
    have hi : i < n := hl i (List.mem_cons_self i rest)
    have hrest : ∀ k ∈ rest, k < n := fun k hk => hl k (List.mem_cons_of_mem i hk)
    unfold findWinnerAux at hw
    dsimp only at hw
    split_ifs at hw with h1
    · exact ih acc w hacc hrest hw
    · cases acc with
      | none =>
        refine ih _ w (fun v b hvb => ?_) hrest hw
        injection hvb with hvb
        injection hvb with hv hb
        omega
      | some vb =>
        rcases vb with ⟨bv, bi⟩
        have hbi : bi < n := hacc bv bi rfl
        dsimp only at hw
        split_ifs at hw
        · refine ih _ w (fun v b hvb => ?_) hrest hw
          injection hvb with hvb
          injection hvb with hv hb
          omega
        · refine ih _ w (fun v b hvb => ?_) hrest hw
          injection hvb with hvb
          injection hvb with hv hb
          omega

theorem awardPotAt_chipSum (gs : GameState) (i : Nat) (h : i < gs.players.length) :
    chipSum (awardPotAt gs i) = chipSum gs := by
  unfold awardPotAt chipSum
  dsimp only
  rw [chipsOf_modAt_of_lt gs.players i _ h]
  dsimp only
  ring

theorem chipSum_resolve (rank : Ranker) (gs : GameState) :
    chipSum (resolve_showdown rank gs) = chipSum gs := by
  unfold resolve_showdown
  cases hidx : activeNotFoldedIdx gs.players with
  | nil => rfl
  | cons i rest =>
    have hi : i < gs.players.length := by
      apply mem_activeNotFoldedIdx_lt
      rw [hidx]
      exact List.mem_cons_self i rest
    dsimp only
    split_ifs
    · exact awardPotAt_chipSum gs i hi
    · exact awardPotAt_chipSum gs i hi
    · cases hw : findWinnerAux rank gs.community_cards gs.players (i :: rest) none with
      | none => rfl
      | some w =>
        have hwlt : w < gs.players.length := by
          apply findWinnerAux_lt rank gs.community_cards gs.players gs.players.length
            (i :: rest) none w
          · intro v b hvb
            simp at hvb
          · intro k hk
            apply mem_activeNotFoldedIdx_lt
            rw [hidx]
            exact hk
          · exact hw
        exact awardPotAt_chipSum gs w hwlt

theorem chipSum_advanceAfterAction (deck : List Card) (gs : GameState) :
    chipSum (advanceAfterAction deck gs) = chipSum gs := by
  unfold advanceAfterAction
  split_ifs
  · rfl
  · exact chipSum_progress deck gs
  · cases scanNextAux gs.players gs.players.length
        (((gs.current_player_index + 1) % (gs.players.length : Int)).toNat) with
    | some idx => rfl
    | none => exact chipSum_progress deck gs

theorem chipSum_postProcess (rank : Ranker) (deck : List Card) (gs : GameState) :
    chipSum (postProcess rank deck gs) = chipSum gs := by
  unfold postProcess maybeResolve
  split_ifs
  · rw [chipSum_resolve, chipSum_advanceAfterAction]
  · rw [chipSum_advanceAfterAction]

theorem chipSum_applyAct (gs gs1 : GameState) (j : Nat) (act : String) (amt : Int)
    (hj : j < gs.players.length)
    (h : applyAct gs j act amt = Except.ok gs1) :
    chipSum gs1 = chipSum gs := by
  unfold applyAct at h
  dsimp only at h
  split_ifs at h
  any_goals simp at h
  all_goals
    first
      | (subst h
         rfl)
      | (subst h
         unfold chipSum
         dsimp only
         rw [chipsOf_modAt_of_lt gs.players j _ hj]
         dsimp only
         ring)

/-- Claim C2: every accepted action (fold, check, call, raise) — including the
showdown resolution it may trigger, for any HandRanker — conserves the total
`pot + Σ chips` of the table. -/
theorem accepted_action_conserves_chips (rank : Ranker) (deck : List Card)
    (gs : GameState) (pid? : Option Int) (act : String) (amt : Int)
    (h : (process_player_action rank deck gs pid? act amt).2 = none) :
    chipSum (process_player_action rank deck gs pid? act amt).1 = chipSum gs := by
  revert h
  unfold process_player_action
  cases pid? with
  | none => intro h; simp at h
  | some pid =>
    dsimp only
    split_ifs with h1 h2 h3
    · intro h; simp at h
    · intro h; simp at h
    · intro h; simp at h
    · cases hp : pyIdxNat gs.players.length pid with
      | none => intro h; simp at h
      | some j =>
        have hjlt : j < gs.players.length :=
          pyIdxNat_lt gs.players.length pid j hp (by omega)
        dsimp only
        split_ifs with h4
        · intro h; simp at h
        · cases ha : applyAct gs j act amt with
          | error msg => intro h; simp at h
          | ok gs1 =>
            intro _
            dsimp only
            rw [chipSum_postProcess]
            exact chipSum_applyAct gs gs1 j act amt hjlt ha

/-- Witness for C2: seat 0's accepted check on `gsEven` conserves
`pot + Σ chips`. -/
theorem accepted_action_conserves_chips_witness :
    chipSum (process_player_action constRanker [] gsEven (some 0) "check" 0).1 =
      chipSum gsEven :=
  accepted_action_conserves_chips constRanker [] gsEven (some 0) "check" 0 rfl

theorem resetRoundFlags_is_active (p : Player) :
    (resetRoundFlags p).is_active = p.is_active := by
  unfold resetRoundFlags
  split <;> rfl

theorem resetRoundFlags_is_small_blind (p : Player) :
    (resetRoundFlags p).is_small_blind = p.is_small_blind := by
  unfold resetRoundFlags
  split <;> rfl

theorem resetRoundFlags_folded (p : Player) :
    (resetRoundFlags p).folded = p.folded := by
  unfold resetRoundFlags
  split <;> rfl

theorem resetRoundFlags_is_dealer (p : Player) :
    (resetRoundFlags p).is_dealer = p.is_dealer := by
  unfold resetRoundFlags
  split <;> rfl

/-- Claim C4 (amended): whenever `progress_betting_round` runs with more than
one active non-folded seat, the new `current_player_index` is the first seat
that is active and flagged small blind — regardless of whether that seat has
folded — and only if no active small-blind seat exists, the first active
non-folded seat that is not the dealer (unchanged when neither exists). -/
theorem progress_actor_spec (deck : List Card) (gs : GameState)
    (h : 1 < countActiveNotFolded gs.players) :
    (progress_betting_round deck gs).current_player_index =
      newActorIndex gs.players gs.current_player_index := by
  unfold progress_betting_round
  rw [if_neg (by omega)]
  have hps : (progress_deal deck (progress_reset gs)).players =
      gs.players.map resetRoundFlags := by
    rw [progress_deal_players]
    rfl
  have hcpi : (progress_deal deck (progress_reset gs)).current_player_index =
      gs.current_player_index := by
    rw [progress_deal_cpi]
    rfl
  have hcnt : countActiveNotFolded (progress_deal deck (progress_reset gs)).players =
      countActiveNotFolded gs.players := by
    rw [hps]
    unfold countActiveNotFolded
    apply filter_length_map_pres
    intro p
    rw [resetRoundFlags_is_active, resetRoundFlags_folded]
  have h1 : firstIdx (fun p => p.is_active && p.is_small_blind)
        (progress_deal deck (progress_reset gs)).players =
      firstIdx (fun p => p.is_active && p.is_small_blind) gs.players := by
    rw [hps]
    apply firstIdx_map_pres
    intro p
    rw [resetRoundFlags_is_active, resetRoundFlags_is_small_blind]
  have h2 : firstIdx (fun p => p.is_active && !p.folded && !p.is_dealer)
        (progress_deal deck (progress_reset gs)).players =
      firstIdx (fun p => p.is_active && !p.folded && !p.is_dealer) gs.players := by
    rw [hps]
    apply firstIdx_map_pres
    intro p
    rw [resetRoundFlags_is_active, resetRoundFlags_folded, resetRoundFlags_is_dealer]
  unfold progress_set_actor newActorIndex
  rw [if_pos (by omega), h1, h2]
  cases firstIdx (fun p => p.is_active && p.is_small_blind) gs.players with
  | some i => rfl
  | none =>
    cases firstIdx (fun p => p.is_active && !p.folded && !p.is_dealer) gs.players with
    | some i => rfl
    | none => exact hcpi

/-- Witness for C4 (amended): on `gsSBfolded` (two live seats),
`progress_betting_round` hands the turn to the seat `newActorIndex` selects. -/
theorem progress_actor_spec_witness :
    (progress_betting_round create_deck gsSBfolded).current_player_index =
      newActorIndex gsSBfolded.players gsSBfolded.current_player_index :=
  progress_actor_spec create_deck gsSBfolded (by decide)

/-- Claim C4 (counterexample): on `gsSBfolded` the small blind (seat 1) has
folded while seats 0 and 2 are live; the claim demands the first active
non-folded non-dealer seat (seat 2), but `progress_betting_round` sets
`current_player_index` to the folded seat 1 — so the resulting index does not
refer to a non-folded seat. -/
theorem folded_small_blind_gets_turn :
    (gsSBfolded.players.getD 1 dfltPlayer).folded = true ∧
    1 < countActiveNotFolded gsSBfolded.players ∧
    (progress_betting_round create_deck gsSBfolded).current_player_index = 1 ∧
    ((progress_betting_round create_deck gsSBfolded).players.getD 1 dfltPlayer).folded =
      true := by
  exact ⟨rfl, by decide, by rfl, by rfl⟩

theorem startPrep_length (deck : List Card) (ps : List Player) (activeIdx : List Nat) :
    (startPrep deck ps activeIdx).length = ps.length := by
  unfold startPrep
  rw [List.length_map]
  have h2 : (dealHoles deck (startResetAll ps activeIdx) activeIdx).length =
      (startResetAll ps activeIdx).length :=
    foldl_modAt_length (fun ki : Nat × Nat => ki.2) (holeStep deck) activeIdx.enum _
  have h1 : (startResetAll ps activeIdx).length = ps.length :=
    foldl_modAt_length (fun i => i) (fun _ => startReset) activeIdx ps
  rw [h2, h1]

theorem startPrep_chips (deck : List Card) (ps : List Player) (activeIdx : List Nat) :
    ∀ j : Nat, ((startPrep deck ps activeIdx).getD j dfltPlayer).chips =
      (ps.getD j dfltPlayer).chips := by
  intro j
  unfold startPrep
  rw [getD_chips_map_pres clearBlindFlags (fun p => rfl)]
  have h2 : ((dealHoles deck (startResetAll ps activeIdx) activeIdx).getD j dfltPlayer).chips =
      ((startResetAll ps activeIdx).getD j dfltPlayer).chips :=
    getD_chips_foldl_modAt (fun ki : Nat × Nat => ki.2) (holeStep deck) (fun b p => rfl)
      activeIdx.enum (startResetAll ps activeIdx) j
  have h1 : ((startResetAll ps activeIdx).getD j dfltPlayer).chips =
      (ps.getD j dfltPlayer).chips :=
    getD_chips_foldl_modAt (fun i => i) (fun _ => startReset) (fun b p => rfl)
      activeIdx ps j
  rw [h2, h1]

theorem activeNonPendingIdx_nodup (ps : List Player) : (activeNonPendingIdx ps).Nodup :=
  List.Nodup.filter _ (List.nodup_range ps.length)

theorem activeNonPendingIdx_lt (ps : List Player) (i : Nat)
    (h : i ∈ activeNonPendingIdx ps) : i < ps.length :=
  List.mem_range.mp (List.mem_filter.mp h).1

theorem getD_mem_of_lt_nat (l : List Nat) (j : Nat) (h : j < l.length) :
    l.getD j 0 ∈ l := by
  rw [List.getD_eq_getElem l 0 h]
  exact List.getElem_mem h

theorem nodup_getD_ne_nat (l : List Nat) (hnd : l.Nodup) (i j : Nat)
    (hi : i < l.length) (hj : j < l.length) (hij : i ≠ j) :
    l.getD i 0 ≠ l.getD j 0 := by
  rw [List.getD_eq_getElem l 0 hi, List.getD_eq_getElem l 0 hj]
  intro he
  exact hij ((List.Nodup.getElem_inj_iff hnd).mp he)

theorem getD_chips_postBlind (ps : List Player) (i j : Nat) (amt : Int) :
    ((modAt ps i (postBlind amt)).getD j dfltPlayer).chips =
      if j = i ∧ i < ps.length then (ps.getD i dfltPlayer).chips - amt
      else (ps.getD j dfltPlayer).chips := by
  rw [getD_modAt]
  split_ifs with hc
  · rfl
  · rfl

/-- Claim C7 (amended): when every seat holds a non-negative stack that also
covers the small blind and the big blind, `start_game`'s blind posting leaves
every stack non-negative.  (Without that margin a blind deduction drives a
stack negative — see the counterexample.) -/
theorem start_game_blinds_nonneg (deck : List Card) (gs : GameState)
    (h0 : ∀ p ∈ gs.players, 0 ≤ p.chips)
    (hsb : ∀ p ∈ gs.players, gs.small_blind ≤ p.chips)
    (hbb : ∀ p ∈ gs.players, gs.big_blind ≤ p.chips) :
    ∀ j : Nat, 0 ≤ ((start_game deck gs).players.getD j dfltPlayer).chips := by
  intro j
  have hc0 : ∀ k : Nat, 0 ≤ (gs.players.getD k dfltPlayer).chips := by
    intro k
    by_cases hk : k < gs.players.length
    · exact h0 _ (getD_mem_of_lt gs.players k hk)
    · rw [List.getD_eq_default gs.players dfltPlayer (by omega)]
      decide
  have hcsb : ∀ k : Nat, k < gs.players.length →
      gs.small_blind ≤ (gs.players.getD k dfltPlayer).chips :=
    fun k hk => hsb _ (getD_mem_of_lt gs.players k hk)
  have hcbb : ∀ k : Nat, k < gs.players.length →
      gs.big_blind ≤ (gs.players.getD k dfltPlayer).chips :=
    fun k hk => hbb _ (getD_mem_of_lt gs.players k hk)
  have hprom : ∀ k : Nat, ((gs.players.map promoteSeat).getD k dfltPlayer).chips =
      (gs.players.getD k dfltPlayer).chips :=
    getD_chips_map_pres promoteSeat (fun p => by unfold promoteSeat; split <;> rfl)
      gs.players
  have hpSB : ∀ (ps : List Player) (i k : Nat),
      ((modAt ps i setDealerSBFlags).getD k dfltPlayer).chips =
        (ps.getD k dfltPlayer).chips :=
    fun ps i k => getD_chips_modAt_pres ps i k _ (fun p => rfl)
  have hpBB : ∀ (ps : List Player) (i k : Nat),
      ((modAt ps i setBBFlag).getD k dfltPlayer).chips = (ps.getD k dfltPlayer).chips :=
    fun ps i k => getD_chips_modAt_pres ps i k _ (fun p => rfl)
  have hpD : ∀ (ps : List Player) (i k : Nat),
      ((modAt ps i setDealerFlag).getD k dfltPlayer).chips =
        (ps.getD k dfltPlayer).chips :=
    fun ps i k => getD_chips_modAt_pres ps i k _ (fun p => rfl)
  have hpS : ∀ (ps : List Player) (i k : Nat),
      ((modAt ps i setSBFlag).getD k dfltPlayer).chips = (ps.getD k dfltPlayer).chips :=
    fun ps i k => getD_chips_modAt_pres ps i k _ (fun p => rfl)
  unfold start_game
  dsimp only
  set A := activeNonPendingIdx (gs.players.map promoteSeat) with hAdef
  have hAmem : ∀ i ∈ A, i < gs.players.length := by
    intro i hi
    have := activeNonPendingIdx_lt _ i (hAdef ▸ hi)
    simpa using this
  by_cases hlt : A.length < 2
  · rw [if_pos hlt]
    dsimp only
    rw [hprom j]
    exact hc0 j
  rw [if_neg hlt]
  by_cases hl2 : A.length = 2
  · rw [if_pos hl2]
    dsimp only
    have hA0lt : A.getD 0 0 < gs.players.length :=
      hAmem _ (getD_mem_of_lt_nat A 0 (by omega))
    have hA1lt : A.getD 1 0 < gs.players.length :=
      hAmem _ (getD_mem_of_lt_nat A 1 (by omega))
    have hne : A.getD 0 0 ≠ A.getD 1 0 :=
      nodup_getD_ne_nat A (hAdef ▸ activeNonPendingIdx_nodup _) 0 1
        (by omega) (by omega) (by omega)
    have hbA0 := hcsb _ hA0lt
    have hbA1 := hcbb _ hA1lt
    have hj0 := hc0 j
    simp only [getD_chips_postBlind, hpSB, hpBB, modAt_length, startPrep_length,
      List.length_map, startPrep_chips, hprom]
    split_ifs <;> omega
  · rw [if_neg hl2]
    have h3 : 2 < A.length := by omega
    dsimp only
    rw [if_pos h3]
    have hA1lt : A.getD 1 0 < gs.players.length :=
      hAmem _ (getD_mem_of_lt_nat A 1 (by omega))
    have hA2lt : A.getD 2 0 < gs.players.length :=
      hAmem _ (getD_mem_of_lt_nat A 2 (by omega))
    have hne : A.getD 1 0 ≠ A.getD 2 0 :=
      nodup_getD_ne_nat A (hAdef ▸ activeNonPendingIdx_nodup _) 1 2
        (by omega) (by omega) (by omega)
    have hbA1 := hcsb _ hA1lt
    have hbA2 := hcbb _ hA2lt
    have hj0 := hc0 j
    simp only [getD_chips_postBlind, hpD, hpS, hpBB, modAt_length, startPrep_length,
      List.length_map, startPrep_chips, hprom]
    split_ifs <;> omega

/-- Witness for C7 (amended): on `gsRich` (two seats of 100 chips, blinds
5/10) seat 0's stack is still non-negative after `start_game`. -/
theorem start_game_blinds_nonneg_witness :
    0 ≤ ((start_game create_deck gsRich).players.getD 0 dfltPlayer).chips :=
  start_game_blinds_nonneg create_deck gsRich (by decide) (by decide) (by decide) 0

/-- Claim C7 (counterexample): on `gsPoor` every seat holds 3 chips (all
non-negative), yet after `start_game` the small-blind seat holds −2 — blind
posting does drive stacks negative. -/
theorem start_game_negative_chips :
    (∀ p ∈ gsPoor.players, 0 ≤ p.chips) ∧
    ((start_game create_deck gsPoor).players.getD 0 dfltPlayer).chips = -2 := by
  constructor
  · decide
  · rfl
